import Mathlib

/-!
Verification of the `pretty-env-logger` formatting core (`src/lib.rs`),
as a shallow embedding in Lean 4.

The mutable pieces of the Rust code are made explicit:
* the `static MAX_MODULE_WIDTH: AtomicUsize` becomes a `Nat` state that is
  threaded through `max_target_width`;
* the `static mut TIMESTAMP_TYPE` global becomes a `TimestampType` value that
  is threaded through `set_timestamp_type` / `formatted_timed_builder`;
* the global logger registry of the `log` crate (an external collaborator,
  not part of this repository) is modelled from the spec as an
  `Option LoggerImpl` state with an at-most-once `set_logger`;
* ambient time reads (`f.timestamp_millis()`, `Local::now().to_rfc3339()`,
  `Utc::now().to_rfc3339()`) become a `TimeInputs` record of the three
  rendered strings that a formatting call would obtain;
* styling renders for a destination without color support, where the styling
  layer degrades to plain text, so a `StyledValue` renders as its text.

String lengths are character counts; the targets and labels concerned are
ASCII, where Rust's byte-based `str::len` agrees.
-/

namespace PrettyEnvLogger

/-- The five severity levels of the `log` crate consumed per record. -/
inductive Level where
  | Trace
  | Debug
  | Info
  | Warn
  | Error
deriving DecidableEq, Repr

/-- Colors used by `colored_level` (from `env_logger::fmt::Color`). -/
inductive Color where
  | Magenta
  | Blue
  | Green
  | Yellow
  | Red
deriving DecidableEq, Repr

/-- A style under construction (`env_logger::fmt::Style`): an optional color
and a bold flag, both off for a fresh `f.style()`. -/
structure Style where
  color : Option Color
  bold : Bool
deriving DecidableEq, Repr

/-- A fresh style, as returned by `f.style()`. -/
def Style.new : Style := ⟨none, false⟩

/-- Mirrors `Style::set_color`, which mutates the style and hands it back. -/
def Style.set_color (s : Style) (c : Color) : Style := { s with color := some c }

/-- Mirrors `Style::set_bold`. -/
def Style.set_bold (s : Style) (b : Bool) : Style := { s with bold := b }

/-- A value paired with the style it is rendered with
(`env_logger::fmt::StyledValue`). -/
structure StyledValue (α : Type) where
  style : Style
  value : α
deriving DecidableEq, Repr

/-- Mirrors `Style::value`, pairing the style with a value to display. -/
def Style.value (s : Style) (v : α) : StyledValue α := ⟨s, v⟩

/-- Embedding of `colored_level` (src/lib.rs:287-295): set the level's color
on the style and pair it with the fixed five-character label. -/
def colored_level (style : Style) (level : Level) : StyledValue String :=
  match level with
  | .Trace => (style.set_color .Magenta).value "TRACE"
  | .Debug => (style.set_color .Blue).value "DEBUG"
  | .Info => (style.set_color .Green).value "INFO "
  | .Warn => (style.set_color .Yellow).value "WARN "
  | .Error => (style.set_color .Red).value "ERROR"

/-- Embedding of `struct Padded` (src/lib.rs:264-267), specialised to the
`String` values the formatter uses it with. -/
structure Padded where
  value : String
  width : Nat
deriving DecidableEq, Repr

/-- A run of `n` spaces, the fill used by the `{: <width$}` format. -/
def spaces (n : Nat) : String := String.mk (List.replicate n ' ')

/-- Embedding of `Padded`'s `Display` impl (src/lib.rs:269-273):
`write!(f, "{: <width$}", self.value, width = self.width)` left-aligns the
value and pads with trailing spaces up to `width`; a value at least `width`
long is written unchanged (truncation never happens). -/
def Padded.render (p : Padded) : String :=
  p.value ++ spaces (p.width - p.value.length)

/-- Embedding of `max_target_width` (src/lib.rs:277-285) in the sequential
(single-caller) case: the `AtomicUsize` `MAX_MODULE_WIDTH` is the `Nat`
argument `st`, and the function returns the width for this record together
with the value of `MAX_MODULE_WIDTH` after the call (the store happens
exactly in the `max_width < target.len()` branch). -/
def max_target_width (target : String) (st : Nat) : Nat × Nat :=
  let max_width := st
  if max_width < target.length then
    (target.length, target.length)
  else
    (max_width, st)

/-- Sequential run of `max_target_width` over a list of record targets,
starting from width state `st`: the widths each call returns, and the final
state. -/
def runWidths (ts : List String) (st : Nat) : List Nat × Nat :=
  match ts with
  | [] => ([], st)
  | t :: rest =>
    let (w, st2) := max_target_width t st
    let (ws, st3) := runWidths rest st2
    (w :: ws, st3)

/-- A log record as consumed by the format closures: target name, level and
the rendered message (`record.args()`). -/
structure LogRecord where
  target : String
  level : Level
  args : String
deriving DecidableEq, Repr

/-- Embedding of the format closure installed by `formatted_builder`
(src/lib.rs:200-216): observe the target's width, color the level, bold-pad
the target, and emit `" {level} {target} > {args}\n"`. Styled values render
as their plain text (no-color destination). Returns the line together with
the width state after the call. -/
def formatRecord (st : Nat) (record : LogRecord) : String × Nat :=
  let target := record.target
  let (max_width, st2) := max_target_width target st
  let level := colored_level Style.new record.level
  let targetStyled := (Style.new.set_bold true).value (Padded.mk target max_width)
  (" " ++ level.value ++ " " ++ targetStyled.value.render ++ " > " ++ record.args ++ "\n",
    st2)

/-- The timestamp styles of the timed logger (src/lib.rs:70-77). -/
inductive TimestampType where
  | SystemTimeMillis
  | LocalRfc3339
  | UtcRfc3339
deriving DecidableEq, Repr

/-- The value of the `static mut TIMESTAMP_TYPE` global at process start
(src/lib.rs:81): it defaults to system-time millis. -/
def TIMESTAMP_TYPE : TimestampType := .SystemTimeMillis

/-- Embedding of `set_timestamp_type` (src/lib.rs:93-97): overwrite the
global timestamp type, here passed as the explicit old state. -/
def set_timestamp_type (timestamp_type : TimestampType) (_old : TimestampType) :
    TimestampType :=
  timestamp_type

/-- The three rendered time strings a formatting call could obtain from its
ambient clocks: `f.timestamp_millis()`, `Local::now().to_rfc3339()` and
`Utc::now().to_rfc3339()`. -/
structure TimeInputs where
  millis : String
  localRfc3339 : String
  utcRfc3339 : String
deriving DecidableEq, Repr

/-- The time string the timed closure's `match timestamp_format` selects
(src/lib.rs:245-258). -/
def renderTimestamp (mode : TimestampType) (t : TimeInputs) : String :=
  match mode with
  | .SystemTimeMillis => t.millis
  | .LocalRfc3339 => t.localRfc3339
  | .UtcRfc3339 => t.utcRfc3339

/-- The builder returned by `formatted_timed_builder`: the timestamp type the
closure captured by value (`unsafe { TIMESTAMP_TYPE.clone() }`), plus the
filter string `parse_filters` may record. -/
structure TimedBuilder where
  timestamp_format : TimestampType
  filters : Option String
deriving DecidableEq, Repr

/-- Embedding of `formatted_timed_builder` (src/lib.rs:226-262): it reads the
`TIMESTAMP_TYPE` global once, at construction, and the closure keeps that
copy. -/
def formatted_timed_builder (globalTs : TimestampType) : TimedBuilder :=
  let timestamp_format := globalTs
  ⟨timestamp_format, none⟩

/-- Embedding of the format closure installed by `formatted_timed_builder`
(src/lib.rs:230-259): like the untimed closure but with the selected time
string prepended. -/
def TimedBuilder.formatRecord (b : TimedBuilder) (times : TimeInputs) (st : Nat)
    (record : LogRecord) : String × Nat :=
  let target := record.target
  let (max_width, st2) := max_target_width target st
  let level := colored_level Style.new record.level
  let targetStyled := (Style.new.set_bold true).value (Padded.mk target max_width)
  let time := renderTimestamp b.timestamp_format times
  (" " ++ time ++ " " ++ level.value ++ " " ++ targetStyled.value.render ++ " > " ++
      record.args ++ "\n",
    st2)

/-- The construction-then-reconfiguration scenario of the spec's ordering
hazard: set the global to `m`, build a timed formatter, then set the global
to `m'`. Returns the already-constructed builder and the final global. -/
def buildThenReconfigure (m m' : TimestampType) : TimedBuilder × TimestampType :=
  let g1 := set_timestamp_type m TIMESTAMP_TYPE
  let builder := formatted_timed_builder g1
  let g2 := set_timestamp_type m' g1
  (builder, g2)

/-- Outcome of the `writeln!` to the destination stream: the write either
completes or fails with an I/O error. -/
inductive WriteOutcome where
  | success
  | failure
deriving DecidableEq, Repr

/-- The untimed format closure together with its fallible write: the width
state is updated by `max_target_width` as the line is built, and only then is
the write attempted; its result becomes the closure's return value
(src/lib.rs:200-216). -/
def formatRecordWrite (st : Nat) (record : LogRecord) (w : WriteOutcome) :
    Except Unit String × Nat :=
  let (line, st2) := formatRecord st record
  match w with
  | .success => (Except.ok line, st2)
  | .failure => (Except.error (), st2)

/-- The timed format closure together with its fallible write
(src/lib.rs:230-259). -/
def formatTimedRecordWrite (b : TimedBuilder) (times : TimeInputs) (st : Nat)
    (record : LogRecord) (w : WriteOutcome) : Except Unit String × Nat :=
  let (line, st2) := b.formatRecord times st record
  match w with
  | .success => (Except.ok line, st2)
  | .failure => (Except.error (), st2)

/-- The builder returned by `formatted_builder` (src/lib.rs:197-219): its
format closure is `formatRecord`; the only further per-instance data the
initializers touch is the filter string `parse_filters` records. -/
structure Builder where
  filters : Option String
deriving DecidableEq, Repr

/-- Embedding of `formatted_builder` (src/lib.rs:197-219): a fresh builder
whose format closure is `formatRecord`. -/
def formatted_builder : Builder := ⟨none⟩

/-- Embedding of `Builder::parse_filters`, recording the raw filter string for the
dispatch collaborator (this core does not interpret it). -/
def Builder.parse_filters (b : Builder) (s : String) : Builder :=
  { b with filters := some s }

/-- The `parse_filters` call on a timed builder. -/
def TimedBuilder.parse_filters (b : TimedBuilder) (s : String) : TimedBuilder :=
  { b with filters := some s }

/-- A formatter as held by the global logger registry: either the plain or
the timed builder. -/
inductive LoggerImpl where
  | plain : Builder → LoggerImpl
  | timed : TimedBuilder → LoggerImpl
deriving DecidableEq, Repr

/-- Embedding of `log::SetLoggerError`: the distinguishable error a second installation
attempt receives. -/
inductive SetLoggerError where
  | AlreadySet
deriving DecidableEq, Repr

/-- Modelled from the spec: the dispatch collaborator's registration point,
`install(format_function) -> Result<(), AlreadyInstalledError>` (spec §6).
The `log` crate holding the process-global registry is not part of this
repository; per the spec, at most one global formatter may ever be installed
per process, and a second attempt fails with a distinguishable error rather
than silently replacing the first. The registry state is the `Option
LoggerImpl` argument. -/
def set_logger (f : LoggerImpl) (st : Option LoggerImpl) :
    Except SetLoggerError Unit × Option LoggerImpl :=
  match st with
  | some g => (Except.error .AlreadySet, some g)
  | none => (Except.ok (), some f)

/-- Embedding of `Builder::try_init`, registering the plain formatter. -/
def Builder.try_init (b : Builder) (st : Option LoggerImpl) :
    Except SetLoggerError Unit × Option LoggerImpl :=
  set_logger (.plain b) st

/-- The `try_init` call on a timed builder. -/
def TimedBuilder.try_init (b : TimedBuilder) (st : Option LoggerImpl) :
    Except SetLoggerError Unit × Option LoggerImpl :=
  set_logger (.timed b) st

/-- Embedding of `try_init_custom_env` (src/lib.rs:161-169): build the
formatted builder, parse the named environment variable's filter string when
it is set (`env` is the process environment), and try to install. -/
def try_init_custom_env (env : String → Option String) (name : String)
    (st : Option LoggerImpl) : Except SetLoggerError Unit × Option LoggerImpl :=
  let builder := formatted_builder
  let builder :=
    match env name with
    | some s => builder.parse_filters s
    | none => builder
  builder.try_init st

/-- Embedding of `try_init` (src/lib.rs:122-124). -/
def try_init (env : String → Option String) (st : Option LoggerImpl) :
    Except SetLoggerError Unit × Option LoggerImpl :=
  try_init_custom_env env "RUST_LOG" st

/-- Embedding of `try_init_timed_custom_env` (src/lib.rs:180-190); the timed
builder captures the current `TIMESTAMP_TYPE` global, passed as `globalTs`. -/
def try_init_timed_custom_env (globalTs : TimestampType)
    (env : String → Option String) (name : String) (st : Option LoggerImpl) :
    Except SetLoggerError Unit × Option LoggerImpl :=
  let builder := formatted_timed_builder globalTs
  let builder :=
    match env name with
    | some s => builder.parse_filters s
    | none => builder
  builder.try_init st

/-- Embedding of `try_init_timed` (src/lib.rs:135-137). -/
def try_init_timed (globalTs : TimestampType) (env : String → Option String)
    (st : Option LoggerImpl) : Except SetLoggerError Unit × Option LoggerImpl :=
  try_init_timed_custom_env globalTs env "RUST_LOG" st

/-- Embedding of `init_custom_env` (src/lib.rs:148-150):
`try_init_custom_env(...).unwrap()` — `some` final registry state on
success, `none` when the unwrap panics and the process terminates. -/
def init_custom_env (env : String → Option String) (name : String)
    (st : Option LoggerImpl) : Option (Option LoggerImpl) :=
  match try_init_custom_env env name st with
  | (Except.ok _, st2) => some st2
  | (Except.error _, _) => none

/-- Embedding of `init` (src/lib.rs:64-66): `try_init().unwrap()`. -/
def init (env : String → Option String) (st : Option LoggerImpl) :
    Option (Option LoggerImpl) :=
  match try_init env st with
  | (Except.ok _, st2) => some st2
  | (Except.error _, _) => none

/-- Embedding of `init_timed` (src/lib.rs:109-111): `try_init_timed().unwrap()`. -/
def init_timed (globalTs : TimestampType) (env : String → Option String)
    (st : Option LoggerImpl) : Option (Option LoggerImpl) :=
  match try_init_timed globalTs env st with
  | (Except.ok _, st2) => some st2
  | (Except.error _, _) => none

/-!
Interleaved executions of `max_target_width`. Each concurrent call performs
two shared-memory accesses on `MAX_MODULE_WIDTH`: a `load(Relaxed)`, and
then — only when the loaded value is smaller than the target's length — a
separate `store(Relaxed)` (src/lib.rs:277-285). There is no single atomic
read-modify-write. We model each call as a thread that takes two atomic
steps under a sequentially consistent interleaving chosen by a schedule;
races the code loses under this strong model it also loses under the real,
weaker `Relaxed` semantics.
-/

/-- One in-flight call to `max_target_width`: its target, the value its load
returned (`none` before the load runs), and its returned width (`none` until
the call completes). -/
structure ThreadState where
  target : String
  loaded : Option Nat
  result : Option Nat
deriving DecidableEq, Repr

/-- A call that has not yet executed either of its steps. -/
def freshCall (target : String) : ThreadState := ⟨target, none, none⟩

/-- The shared `MAX_MODULE_WIDTH` cell together with every in-flight call. -/
structure TrackerState where
  width : Nat
  threads : List ThreadState
deriving DecidableEq, Repr

/-- Run one atomic step of one call: first the load; then the compare, the
conditional store, and the return (a completed call steps idly). -/
def stepThread (g : Nat) (c : ThreadState) : Nat × ThreadState :=
  match c.loaded with
  | none => (g, { c with loaded := some g })
  | some l =>
    match c.result with
    | some _ => (g, c)
    | none =>
      if l < c.target.length then
        (c.target.length, { c with result := some c.target.length })
      else
        (g, { c with result := some l })

/-- Schedule thread `i` for one step (an out-of-range index does nothing). -/
def stepAt (s : TrackerState) (i : Nat) : TrackerState :=
  match s.threads[i]? with
  | none => s
  | some c =>
    let (g2, c2) := stepThread s.width c
    { width := g2, threads := s.threads.set i c2 }

/-- Run a whole schedule of thread indices. -/
def runSched (s : TrackerState) (sched : List Nat) : TrackerState :=
  sched.foldl stepAt s

/-! ## Helper lemmas -/

/-- Both the value `max_target_width` returns and the state it leaves behind
equal the maximum of the old state and the target's length. -/
theorem max_target_width_eq_max (t : String) (st : Nat) :
    max_target_width t st = (max st t.length, max st t.length) := by
  unfold max_target_width
  rcases Nat.lt_or_ge st t.length with h | h
  · rw [if_pos h, Nat.max_eq_right (Nat.le_of_lt h)]
  · rw [if_neg (Nat.not_lt.mpr h), Nat.max_eq_left h]

/-- Unfolding `runWidths` one record at a time, through
`max_target_width_eq_max`. -/
theorem runWidths_cons (t : String) (rest : List String) (st : Nat) :
    runWidths (t :: rest) st =
      (max st t.length :: (runWidths rest (max st t.length)).1,
        (runWidths rest (max st t.length)).2) := by
  simp [runWidths, max_target_width_eq_max]

/-- Every width a sequential run returns is at least the starting state. -/
theorem le_of_mem_runWidths (ts : List String) (st : Nat) :
    ∀ x ∈ (runWidths ts st).1, st ≤ x := by
  induction ts generalizing st with
  | nil => intro x hx; simp [runWidths] at hx
  | cons t rest ih =>
    intro x hx
    rw [runWidths_cons] at hx
    rcases List.mem_cons.mp hx with h | h
    · exact h ▸ Nat.le_max_left st t.length
    · exact Nat.le_trans (Nat.le_max_left st t.length) (ih (max st t.length) x h)

/-- The widths of a sequential run are pairwise non-decreasing. -/
theorem runWidths_pairwise (ts : List String) (st : Nat) :
    (runWidths ts st).1.Pairwise (· ≤ ·) := by
  induction ts generalizing st with
  | nil => simp [runWidths]
  | cons t rest ih =>
    rw [runWidths_cons]
    exact List.Pairwise.cons (fun x hx => le_of_mem_runWidths _ _ x hx) (ih _)

/-- The width for record `n` dominates the length of every target among
records `0..n`. -/
theorem runWidths_dominates (ts : List String) (st n : Nat)
    (hn : n < (runWidths ts st).1.length) (t : String)
    (ht : t ∈ ts.take (n + 1)) :
    t.length ≤ (runWidths ts st).1[n] := by
  induction ts generalizing st n with
  | nil => simp [runWidths] at hn
  | cons u rest ih =>
    have hcons := runWidths_cons u rest st
    cases n with
    | zero =>
      simp only [List.take, List.take_zero, List.mem_cons, List.not_mem_nil,
        or_false] at ht
      subst ht
      simp [hcons, Nat.le_max_right]
    | succ m =>
      have hm : m < (runWidths rest (max st u.length)).1.length := by
        have h2 := hn
        rw [hcons] at h2
        simpa using h2
      have hgoal : (runWidths (u :: rest) st).1[m + 1] =
          (runWidths rest (max st u.length)).1[m] := by
        simp only [hcons, List.getElem_cons_succ]
      rw [hgoal]
      rw [List.take_succ_cons] at ht
      rcases List.mem_cons.mp ht with h | h
      · rw [h]
        have hmem := List.getElem_mem hm
        have hle := le_of_mem_runWidths rest (max st u.length) _ hmem
        exact Nat.le_trans (Nat.le_max_right st u.length) hle
      · exact ih (max st u.length) m hm h

/-- Index form of `runWidths_pairwise`: earlier widths never exceed later
ones. -/
theorem runWidths_monotone (ts : List String) (st i j : Nat)
    (hi : i < (runWidths ts st).1.length) (hj : j < (runWidths ts st).1.length)
    (hij : i ≤ j) :
    (runWidths ts st).1[i] ≤ (runWidths ts st).1[j] := by
  rcases Nat.lt_or_ge i j with h | h
  · exact (List.pairwise_iff_getElem.mp (runWidths_pairwise ts st)) i j hi hj h
  · have : i = j := Nat.le_antisymm hij h
    subst this
    exact Nat.le_refl _

/-- The length of a run of spaces. -/
theorem spaces_length (n : Nat) : (spaces n).length = n := by
  simp [spaces, String.length]

/-- Appending zero spaces is the identity. -/
theorem append_spaces_zero (v : String) : v ++ spaces 0 = v := by
  cases v with
  | mk data =>
    show String.mk (data ++ []) = String.mk data
    rw [List.append_nil]

/-- Closed form of the untimed format closure: the emitted line and the
updated width state. -/
theorem formatRecord_eq (st : Nat) (record : LogRecord) :
    formatRecord st record =
      (" " ++ (colored_level Style.new record.level).value ++ " " ++
          Padded.render ⟨record.target, max st record.target.length⟩ ++ " > " ++
          record.args ++ "\n",
        max st record.target.length) := by
  simp [formatRecord, max_target_width_eq_max, Style.value]

/-- Closed form of the timed format closure. -/
theorem formatTimedRecord_eq (b : TimedBuilder) (times : TimeInputs) (st : Nat)
    (record : LogRecord) :
    b.formatRecord times st record =
      (" " ++ renderTimestamp b.timestamp_format times ++ " " ++
          (colored_level Style.new record.level).value ++ " " ++
          Padded.render ⟨record.target, max st record.target.length⟩ ++ " > " ++
          record.args ++ "\n",
        max st record.target.length) := by
  simp [TimedBuilder.formatRecord, max_target_width_eq_max, Style.value]

/-- No label produced by `colored_level` contains a newline. -/
theorem count_newline_label (s : Style) (level : Level) :
    ((colored_level s level).value).data.count '\n' = 0 := by
  cases level <;> rfl

/-- A padded target contains no newline when the target itself has none. -/
theorem count_newline_padded (v : String) (w : Nat) (h : '\n' ∉ v.data) :
    (Padded.render ⟨v, w⟩).data.count '\n' = 0 := by
  simp only [Padded.render, spaces, String.data_append, List.count_append]
  rw [List.count_eq_zero.mpr h]
  simp [List.count_replicate]

/-! ## The claims -/

/-- Claim C1: in a sequential run of `max_target_width`, the width returned
for record `n` is at least the length of every target observed in records
`0..n`; the widths never decrease across calls; and the targets `"a"`,
`"bbbbb"`, `"cc"` yield the successive widths 1, 5, 5. -/
theorem max_target_width_monotone_alignment :
    (∀ (ts : List String) (st n : Nat) (hn : n < (runWidths ts st).1.length)
        (t : String), t ∈ ts.take (n + 1) → t.length ≤ (runWidths ts st).1[n]) ∧
    (∀ (ts : List String) (st i j : Nat) (hi : i < (runWidths ts st).1.length)
        (hj : j < (runWidths ts st).1.length), i ≤ j →
        (runWidths ts st).1[i] ≤ (runWidths ts st).1[j]) ∧
    (runWidths ["a", "bbbbb", "cc"] 0).1 = [1, 5, 5] := by
  refine ⟨?_, ?_, ?_⟩
  · intro ts st n hn t ht
    exact runWidths_dominates ts st n hn t ht
  · intro ts st i j hi hj hij
    exact runWidths_monotone ts st i j hi hj hij
  · decide

/-- Witness for C1 at the spec's example: the width for the third record
dominates the length of the second record's target `"bbbbb"`. -/
theorem max_target_width_monotone_alignment_witness :
    "bbbbb".length ≤ ((runWidths ["a", "bbbbb", "cc"] 0).1).get ⟨2, by decide⟩ :=
  max_target_width_monotone_alignment.1 ["a", "bbbbb", "cc"] 0 2 (by decide)
    "bbbbb" (by decide)

/-- Claim C2: `max_target_width` returns the larger of the current maximum
and the target's length, and the stored maximum becomes the target's length
exactly when that length is strictly greater than the current maximum
(otherwise the state is left untouched). -/
theorem max_target_width_observe_and_get (t : String) (st : Nat) :
    (max_target_width t st).1 = max st t.length ∧
    (max_target_width t st).2 = (if st < t.length then t.length else st) := by
  constructor
  · rw [max_target_width_eq_max]
  · rcases Nat.lt_or_ge st t.length with h | h
    · simp [max_target_width, h]
    · simp [max_target_width, Nat.not_lt.mpr h]

/-- Claim C5: the untimed closure emits exactly one line of the form
`" {LEVEL} {padded-target} > {message}\n"` and the timed closure one line of
the form `" {time} {LEVEL} {padded-target} > {message}\n"` (one newline in
the output whenever target, message and time text contain none); formatting
`{target := "net::server", level := Info, args := "listening"}` untimed from
a fresh width state produces `" INFO  net::server > listening\n"`. -/
theorem format_line_shape :
    (∀ (st : Nat) (record : LogRecord),
      formatRecord st record =
        (" " ++ (colored_level Style.new record.level).value ++ " " ++
            Padded.render ⟨record.target, max st record.target.length⟩ ++ " > " ++
            record.args ++ "\n",
          max st record.target.length)) ∧
    (∀ (b : TimedBuilder) (times : TimeInputs) (st : Nat) (record : LogRecord),
      b.formatRecord times st record =
        (" " ++ renderTimestamp b.timestamp_format times ++ " " ++
            (colored_level Style.new record.level).value ++ " " ++
            Padded.render ⟨record.target, max st record.target.length⟩ ++ " > " ++
            record.args ++ "\n",
          max st record.target.length)) ∧
    (∀ (st : Nat) (record : LogRecord), '\n' ∉ record.target.data →
      '\n' ∉ record.args.data →
      ((formatRecord st record).1).data.count '\n' = 1) ∧
    (∀ (b : TimedBuilder) (times : TimeInputs) (st : Nat) (record : LogRecord),
      '\n' ∉ record.target.data → '\n' ∉ record.args.data →
      '\n' ∉ (renderTimestamp b.timestamp_format times).data →
      ((b.formatRecord times st record).1).data.count '\n' = 1) ∧
    formatRecord 0 ⟨"net::server", Level.Info, "listening"⟩ =
      (" INFO  net::server > listening\n", 11) := by
  refine ⟨formatRecord_eq, formatTimedRecord_eq, ?_, ?_, by decide⟩
  · intro st record h1 h2
    rw [formatRecord_eq]
    simp only [String.data_append, List.count_append]
    rw [count_newline_label, count_newline_padded record.target _ h1,
      List.count_eq_zero.mpr h2]
    rfl
  · intro b times st record h1 h2 h3
    rw [formatTimedRecord_eq]
    simp only [String.data_append, List.count_append]
    rw [count_newline_label, count_newline_padded record.target _ h1,
      List.count_eq_zero.mpr h2, List.count_eq_zero.mpr h3]
    rfl

/-- Witness for C5's one-line property at the spec's example record. -/
theorem format_line_shape_witness :
    ((formatRecord 0 ⟨"net::server", Level.Info, "listening"⟩).1).data.count '\n' = 1 :=
  format_line_shape.2.2.1 0 ⟨"net::server", Level.Info, "listening"⟩
    (by decide) (by decide)

/-- Claim C6: `colored_level` realises exactly the fixed label/color table
Trace→"TRACE"/magenta, Debug→"DEBUG"/blue, Info→"INFO "/green,
Warn→"WARN "/yellow, Error→"ERROR"/red, and every label is exactly five
characters long. -/
theorem colored_level_fixed_table (s : Style) :
    colored_level s .Trace = ⟨s.set_color .Magenta, "TRACE"⟩ ∧
    colored_level s .Debug = ⟨s.set_color .Blue, "DEBUG"⟩ ∧
    colored_level s .Info = ⟨s.set_color .Green, "INFO "⟩ ∧
    colored_level s .Warn = ⟨s.set_color .Yellow, "WARN "⟩ ∧
    colored_level s .Error = ⟨s.set_color .Red, "ERROR"⟩ ∧
    ∀ level : Level, ((colored_level s level).value).length = 5 := by
  refine ⟨rfl, rfl, rfl, rfl, rfl, ?_⟩
  intro level
  cases level <;> rfl

/-- Claim C9: `Padded` renders the full target unmodified, padding with
trailing spaces up to the width when the width suffices and emitting exactly
the target when it does not — padding only, never truncation, with no upper
bound on the target's length. -/
theorem padded_render_never_truncates (v : String) (w : Nat) :
    (∃ fill, Padded.render ⟨v, w⟩ = v ++ fill) ∧
    (v.length ≤ w →
      Padded.render ⟨v, w⟩ = v ++ spaces (w - v.length) ∧
      (Padded.render ⟨v, w⟩).length = w) ∧
    (w < v.length → Padded.render ⟨v, w⟩ = v) := by
  refine ⟨⟨spaces (w - v.length), rfl⟩, ?_, ?_⟩
  · intro h
    refine ⟨rfl, ?_⟩
    rw [Padded.render, String.length_append, spaces_length]
    show v.length + (w - v.length) = w
    omega
  · intro h
    rw [Padded.render]
    rw [Nat.sub_eq_zero_of_le (Nat.le_of_lt h)]
    exact append_spaces_zero v

/-- Witness for C9 at a padding and an overlong instance. -/
theorem padded_render_never_truncates_witness :
    ((Padded.render ⟨"net", 5⟩ = "net" ++ spaces (5 - "net".length) ∧
        (Padded.render ⟨"net", 5⟩).length = 5) ∧
      Padded.render ⟨"net::server", 5⟩ = "net::server") :=
  ⟨(padded_render_never_truncates "net" 5).2.1 (by decide),
    (padded_render_never_truncates "net::server" 5).2.2 (by decide)⟩

/-- Claim C7: in both closures the width state is updated by
`max_target_width` before the write to the destination is attempted: a
failed write returns the I/O error, yet leaves the width state exactly as a
successful write would — already reflecting this record's target length. -/
theorem width_updated_before_write (st : Nat) (record : LogRecord)
    (b : TimedBuilder) (times : TimeInputs) :
    ((formatRecordWrite st record .failure).1 = Except.error () ∧
      (formatRecordWrite st record .failure).2 =
        (formatRecordWrite st record .success).2 ∧
      (formatRecordWrite st record .failure).2 = max st record.target.length) ∧
    ((formatTimedRecordWrite b times st record .failure).1 = Except.error () ∧
      (formatTimedRecordWrite b times st record .failure).2 =
        (formatTimedRecordWrite b times st record .success).2 ∧
      (formatTimedRecordWrite b times st record .failure).2 =
        max st record.target.length) := by
  refine ⟨⟨?_, ?_, ?_⟩, ⟨?_, ?_, ?_⟩⟩ <;>
    simp [formatRecordWrite, formatTimedRecordWrite, formatRecord_eq,
      formatTimedRecord_eq]

/-- Claim C4: the timed formatter captures the `TIMESTAMP_TYPE` global by
value when `formatted_timed_builder` is called: after building under mode
`m`, a later `set_timestamp_type m'` changes the global but the constructed
formatter's output is the same as if the global had remained `m`. -/
theorem timestamp_mode_captured_at_construction (m m' : TimestampType)
    (times : TimeInputs) (st : Nat) (record : LogRecord) :
    ((buildThenReconfigure m m').1).formatRecord times st record =
      (formatted_timed_builder m).formatRecord times st record ∧
    (buildThenReconfigure m m').2 = m' :=
  ⟨rfl, rfl⟩

/-- Claim C10: when `set_timestamp_type` is never called, the global is
still its process-start value `SystemTimeMillis`, so a builder constructed
then renders the millisecond system timestamp. -/
theorem default_timestamp_is_system_millis :
    TIMESTAMP_TYPE = TimestampType.SystemTimeMillis ∧
    (formatted_timed_builder TIMESTAMP_TYPE).timestamp_format =
      TimestampType.SystemTimeMillis ∧
    ∀ (times : TimeInputs) (st : Nat) (record : LogRecord),
      ((formatted_timed_builder TIMESTAMP_TYPE).formatRecord times st record).1 =
        " " ++ times.millis ++ " " ++ (colored_level Style.new record.level).value ++
          " " ++ Padded.render ⟨record.target, max st record.target.length⟩ ++
          " > " ++ record.args ++ "\n" := by
  refine ⟨rfl, rfl, ?_⟩
  intro times st record
  rw [formatTimedRecord_eq]
  rfl

/-- Claim C8: at most one global formatter is ever installed: on an occupied
registry every `try_*` initializer returns the installation error and leaves
the registry unchanged, every non-`try` initializer terminates the process
(`none`) instead of returning the error, and on an empty registry the
installation succeeds. -/
theorem double_install_rejected (g : LoggerImpl) (env : String → Option String)
    (name : String) (ts : TimestampType) (b : Builder) :
    ((try_init env (some g)).1 = Except.error .AlreadySet ∧
      (try_init env (some g)).2 = some g) ∧
    ((try_init_custom_env env name (some g)).1 = Except.error .AlreadySet ∧
      (try_init_custom_env env name (some g)).2 = some g) ∧
    ((try_init_timed ts env (some g)).1 = Except.error .AlreadySet ∧
      (try_init_timed ts env (some g)).2 = some g) ∧
    init env (some g) = none ∧
    init_custom_env env name (some g) = none ∧
    init_timed ts env (some g) = none ∧
    (b.try_init none).1 = Except.ok () ∧
    (b.try_init none).2 = some (.plain b) := by
  refine ⟨⟨?_, ?_⟩, ⟨?_, ?_⟩, ⟨?_, ?_⟩, ?_, ?_, ?_, ?_, ?_⟩ <;>
    simp [try_init, try_init_custom_env, try_init_timed, try_init_timed_custom_env,
      init, init_custom_env, init_timed, Builder.try_init, TimedBuilder.try_init,
      set_logger]

/-- One step of a call keeps its target, and a width it returns is bounded
below by the call's own target length unless it was already returned
before the step. -/
theorem stepThread_result (g : Nat) (c : ThreadState) :
    (stepThread g c).2.target = c.target ∧
    ∀ r, (stepThread g c).2.result = some r →
      c.result = some r ∨ c.target.length ≤ r := by
  obtain ⟨tgt, loaded, result⟩ := c
  cases loaded with
  | none => exact ⟨rfl, fun r hr => Or.inl hr⟩
  | some l =>
    cases result with
    | some r0 => exact ⟨rfl, fun r hr => Or.inl hr⟩
    | none =>
      simp only [stepThread]
      by_cases hlt : l < tgt.length
      · rw [if_pos hlt]
        refine ⟨rfl, ?_⟩
        intro r hr
        cases hr
        exact Or.inr (Nat.le_refl _)
      · rw [if_neg hlt]
        refine ⟨rfl, ?_⟩
        intro r hr
        cases hr
        exact Or.inr (Nat.le_of_not_lt hlt)

/-- Stepping an out-of-range index is the identity. -/
theorem stepAt_eq_none (s : TrackerState) (i : Nat)
    (hg : s.threads[i]? = none) : stepAt s i = s := by
  unfold stepAt
  rw [hg]

/-- Stepping an in-range index runs that call against the shared width. -/
theorem stepAt_eq_some (s : TrackerState) (i : Nat) (c0 : ThreadState)
    (hg : s.threads[i]? = some c0) :
    stepAt s i =
      { width := (stepThread s.width c0).1,
        threads := s.threads.set i (stepThread s.width c0).2 } := by
  unfold stepAt
  rw [hg]

/-- Scheduling one step preserves the per-call lower bound: every completed
call has returned at least its own target's length. -/
theorem stepAt_preserves_lower_bound (s : TrackerState) (i : Nat)
    (h : ∀ c ∈ s.threads, ∀ r, c.result = some r → c.target.length ≤ r) :
    ∀ c ∈ (stepAt s i).threads, ∀ r, c.result = some r → c.target.length ≤ r := by
  intro c hc r hr
  cases hg : s.threads[i]? with
  | none =>
    rw [stepAt_eq_none s i hg] at hc
    exact h c hc r hr
  | some c0 =>
    rw [stepAt_eq_some s i c0 hg] at hc
    have hc0 : c0 ∈ s.threads := List.getElem?_mem hg
    rcases List.mem_or_eq_of_mem_set hc with hmem | heq
    · exact h c hmem r hr
    · have ht := (stepThread_result s.width c0).1
      have hres := (stepThread_result s.width c0).2 r
      subst heq
      rcases hres hr with hold | hle
      · rw [ht]
        exact h c0 hc0 r hold
      · rw [ht]
        exact hle

/-- The per-call lower bound holds after any whole schedule. -/
theorem runSched_lower_bound (sched : List Nat) (s0 : TrackerState)
    (h : ∀ c ∈ s0.threads, ∀ r, c.result = some r → c.target.length ≤ r) :
    ∀ c ∈ (runSched s0 sched).threads, ∀ r, c.result = some r →
      c.target.length ≤ r := by
  induction sched generalizing s0 with
  | nil => exact h
  | cons i rest ih => exact ih (stepAt s0 i) (stepAt_preserves_lower_bound s0 i h)

/-- Counterexample to claim C3 as stated. Three concurrent calls to
`max_target_width` start fresh: thread 0 observes `"bbbbb"`, thread 1
observes `"cc"`, thread 2 observes `"x"`. Under the sequentially consistent
schedule `[0, 1, 0, 1, 2, 2]`, thread 0 loads, thread 1 loads, thread 0
stores 5 and completes (both its steps precede both of thread 2's steps, so
it completed before thread 2), thread 1 then stores 2 over the 5 and
completes, and thread 2 runs entirely afterwards — yet returns width 2,
smaller than the length 5 already seen by the completed thread 0, and the
shared maximum ends at 2: the update 5 is permanently lost to a *smaller*
concurrent store, because the load and the store of `max_target_width` are
two separate operations, not one atomic read-modify-write. -/
theorem width_tracker_lost_update :
    (runSched ⟨0, [freshCall "bbbbb", freshCall "cc", freshCall "x"]⟩
        [0, 1, 0, 1, 2, 2]).width = 2 ∧
    (runSched ⟨0, [freshCall "bbbbb", freshCall "cc", freshCall "x"]⟩
        [0, 1, 0, 1, 2, 2]).threads.map (fun c => c.result) =
      [some 5, some 2, some 2] ∧
    (2 : Nat) < "bbbbb".length := by
  decide

/-- Claim C3, amended: in every interleaved execution from fresh calls, each
completed call returns a width at least its own target's length; but the
shared maximum is not an atomically updated running maximum — as
`width_tracker_lost_update` shows, a width already observed by a completed
call can be permanently lost to a smaller concurrent update, because the
load and the conditional store are separate steps. -/
theorem width_tracker_result_lower_bound (s0 : TrackerState)
    (h0 : ∀ c ∈ s0.threads, c.result = none) (sched : List Nat) :
    ∀ c ∈ (runSched s0 sched).threads, ∀ r, c.result = some r →
      c.target.length ≤ r := by
  apply runSched_lower_bound
  intro c hc r hr
  rw [h0 c hc] at hr
  exact absurd hr (by simp)

/-- Witness for the amended C3: a lone call on `"cc"` run to completion
returns a width of at least 2. -/
theorem width_tracker_result_lower_bound_witness :
    ("cc" : String).length ≤ 2 :=
  width_tracker_result_lower_bound ⟨0, [freshCall "cc"]⟩ (by decide) [0, 0]
    ⟨"cc", some 0, some 2⟩ (by decide) 2 (by decide)

end PrettyEnvLogger
